import Mathlib

/-!
Verification of the `symlinker` config-parse-and-apply pipeline.

Shallow embedding of `src/main.go` of the `symlinker` repository.

The program reads a line-oriented config file, expands environment
variables in each entry's two path fields, ensures the parent directory of
the link path exists, and replaces/creates a symbolic link — with a
dry-run mode that only prints.

Modelling choices:
* The operating system is a `World` of query/result functions
  (`os.Stat`, `os.Lstat`, `os.MkdirAll`, `os.RemoveAll`, `os.Symlink`,
  `os.Open`, the scanner's final error).  Each result function returns
  `none` for success and `some errText` for failure, matching Go's
  `error` values.
* An execution is a trace of `Event`s — stdout prints, filesystem
  mutations, and two call markers (`ensureDirCall`, `applyLinkCall`)
  recording entry into the two per-entry operations `ensureDirExists` /
  `createSymlink` — paired with an optional error (`RunResult`).
* Strings are Lean `String`s; Go's byte-level scanning is reproduced on
  `List Char`.  The whitespace classes are restricted to the Latin-1
  range of `unicode.IsSpace` (the wider Unicode space table is not
  reachable from the claims under study).
* The config file content is given as the list of lines produced by
  `bufio.Scanner` (which strips the line terminators).
-/

/-- Result of an `os.Stat` call, as discriminated by the Go code: the Go
code only ever asks `os.IsNotExist(err)`, so three cases suffice:
success, a not-exist error, and any other error. -/
inductive StatResult where
  | ok
  | notExist
  | otherErr
  deriving DecidableEq

/-- The ambient operating system, as the Go code queries it.  Functions
returning `Option String` yield `none` on success and `some e` when the
corresponding OS call fails with error text `e`. -/
structure World where
  stat : String → StatResult
  lstatExists : String → Bool
  mkdirAllResult : String → Option String
  removeAllResult : String → Option String
  symlinkResult : String → String → Option String
  openResult : String → Option String
  scanErr : Option String

/-- One observable event of a run: a line printed to stdout, entry into
one of the two per-entry operations (call markers, no filesystem
meaning), or a filesystem mutation. -/
inductive Event where
  | print (s : String)
  | ensureDirCall (path : String)
  | applyLinkCall (target : String) (link : String)
  | mkdirAll (path : String)
  | removeAll (path : String)
  | symlink (target : String) (link : String)
  deriving DecidableEq

/-- Whether an event mutates the filesystem. -/
def Event.isMutation : Event → Bool
  | .mkdirAll _ => true
  | .removeAll _ => true
  | .symlink _ _ => true
  | _ => false

/-- Whether an event is a call marker for one of the two per-entry
filesystem operations. -/
def Event.isFsCall : Event → Bool
  | .ensureDirCall _ => true
  | .applyLinkCall _ _ => true
  | _ => false

/-- The filesystem mutations of a trace. -/
def mutations (evs : List Event) : List Event := evs.filter Event.isMutation

/-- The per-entry operation calls of a trace. -/
def callTrace (evs : List Event) : List Event := evs.filter Event.isFsCall

/-- Kind of a filesystem entry. -/
inductive FsKind where
  | file
  | dir
  | link (target : String)
  deriving DecidableEq

/-- Effect of one event on an abstract filesystem (a partial map from
paths to entries).  Prints and call markers do not touch the filesystem;
`mkdirAll` creates the directory entry (creation of missing ancestors is
elided), `removeAll` removes the entry (subtree granularity elided),
`symlink` installs a link entry. -/
def applyEvent (fs : String → Option FsKind) : Event → (String → Option FsKind)
  | .mkdirAll p => fun q => if q = p then some .dir else fs q
  | .removeAll p => fun q => if q = p then none else fs q
  | .symlink t l => fun q => if q = l then some (.link t) else fs q
  | _ => fs

/-- Effect of a trace on an abstract filesystem. -/
def applyEvents (fs : String → Option FsKind) (evs : List Event) :
    String → Option FsKind :=
  evs.foldl applyEvent fs

/-- Outcome of running a piece of the program: the events it emitted (in
order) and, when it aborted, the error it returned. -/
structure RunResult where
  events : List Event
  err : Option String
  deriving DecidableEq

/-! ## Environment-variable expansion (Go's `os.ExpandEnv`) -/

/-- Characters special to the shell, as in Go's
`os.isShellSpecialVar`. -/
def isShellSpecialVar (c : Char) : Bool :=
  c = '*' || c = '#' || c = '$' || c = '@' || c = '!' || c = '?' || c = '-' ||
  ('0' ≤ c && c ≤ '9')

/-- Alphanumeric-or-underscore, as in Go's `os.isAlphaNum`. -/
def isAlphaNum (c : Char) : Bool :=
  c = '_' || ('0' ≤ c && c ≤ '9') || ('a' ≤ c && c ≤ 'z') || ('A' ≤ c && c ≤ 'Z')

/-- The opening curly bracket character. -/
def lbrace : Char := Char.ofNat 123

/-- The closing curly bracket character. -/
def rbrace : Char := Char.ofNat 125

/-- Scan of a curly-bracketed variable reference (`rest` is everything
after the opening bracket), as in the bracket branch of Go's
`os.getShellName`: returns the name and the width consumed after the
dollar sign. -/
def braceScan (rest : List Char) : List Char × Nat :=
  match rest.findIdx? (fun c => c == rbrace) with
  | some 0 => ([], 2)
  | some (i + 1) => (rest.take (i + 1), i + 3)
  | none => ([], 1)

/-- Go's `os.getShellName`: given the text after a dollar sign, the
variable name referenced and the number of characters consumed. -/
def getShellName (s : List Char) : List Char × Nat :=
  match s with
  | [] => ([], 0)
  | c0 :: rest =>
    if c0 = lbrace then
      match rest with
      | c1 :: c2 :: _ =>
        if isShellSpecialVar c1 ∧ c2 = rbrace then ([c1], 3) else braceScan rest
      | _ => braceScan rest
    else if isShellSpecialVar c0 then ([c0], 1)
    else (s.takeWhile isAlphaNum, (s.takeWhile isAlphaNum).length)

/-- Core loop of Go's `os.Expand` with mapping `env` (i.e. `os.ExpandEnv`
when `env` is `os.Getenv`; an unset variable maps to `""`).  The loop
carries an explicit character budget — always instantiated with the
string length, which bounds the number of steps, since every recursive
call consumes at least one character — so that the function is
structurally recursive and evaluates by reduction; the zero-budget case
is unreachable under that instantiation. -/
def expandFuel (env : String → String) : Nat → List Char → List Char
  | _, [] => []
  | 0, l => l
  | fuel + 1, c :: rest =>
    if c = '$' ∧ rest ≠ [] then
      let nw := getShellName rest
      if nw.1.isEmpty ∧ nw.2 > 0 then expandFuel env fuel (rest.drop nw.2)
      else if nw.1.isEmpty then '$' :: expandFuel env fuel rest
      else (env (String.mk nw.1)).toList ++ expandFuel env fuel (rest.drop nw.2)
    else c :: expandFuel env fuel rest

/-- The expansion loop at its canonical budget. -/
def expandLoop (env : String → String) (l : List Char) : List Char :=
  expandFuel env l.length l

/-- `expandPath` of `src/main.go`: expand all environment variables
(`os.ExpandEnv`). -/
def expandPath (env : String → String) (path : String) : String :=
  String.mk (expandLoop env path.toList)

/-! ## Line scanning and path manipulation -/

/-- Whitespace in the sense of Go's `unicode.IsSpace`, restricted to the
Latin-1 range (tab, newline, vertical tab, form feed, carriage return,
space, next-line, no-break space). -/
def isGoSpace (c : Char) : Bool :=
  c = '\t' || c = '\n' || c = Char.ofNat 11 || c = Char.ofNat 12 ||
  c = '\r' || c = ' ' || c = Char.ofNat 133 || c = Char.ofNat 160

/-- Whitespace in the sense of the regular-expression class backslash-s
used by `commentRegex`: tab, newline, form feed, carriage return,
space. -/
def regexSpace (c : Char) : Bool :=
  c = '\t' || c = '\n' || c = Char.ofNat 12 || c = '\r' || c = ' '

/-- Whether `commentRegex` (anchored: optional whitespace then a hash
mark) matches the line: after dropping regex-whitespace, the first
character is a hash mark. -/
def commentMatch (line : String) : Bool :=
  match line.toList.dropWhile regexSpace with
  | c :: _ => c == '#'
  | [] => false

/-- Accumulator-based splitter behind `goFields`. -/
def fieldsCore : List Char → List Char → List String
  | [], acc => if acc.isEmpty then [] else [String.mk acc.reverse]
  | c :: cs, acc =>
    if isGoSpace c then
      if acc.isEmpty then fieldsCore cs []
      else String.mk acc.reverse :: fieldsCore cs []
    else fieldsCore cs (c :: acc)

/-- Go's `strings.Fields`: the maximal runs of non-whitespace
characters. -/
def goFields (s : String) : List String := fieldsCore s.toList []

/-- Split a character list on slashes (empty segments kept, like Go's
`strings.Split` on the separator). -/
def splitSlash : List Char → List Char → List (List Char)
  | [], acc => [acc.reverse]
  | c :: cs, acc =>
    if c = '/' then acc.reverse :: splitSlash cs []
    else splitSlash cs (c :: acc)

/-- Join components with slashes. -/
def joinSlash : List (List Char) → List Char
  | [] => []
  | [p] => p
  | p :: ps => p ++ '/' :: joinSlash ps

/-- Stack step of the path cleaner: pop on a dot-dot component (dropped
at the root; kept when nothing is left to pop in a relative path),
otherwise push. -/
def cleanStep (rooted : Bool) (st : List (List Char)) (p : List Char) :
    List (List Char) :=
  if p = ['.', '.'] then
    match st with
    | [] => if rooted then [] else [p]
    | q :: rest => if q = ['.', '.'] then p :: st else rest
  else p :: st

/-- Go's `path/filepath.Clean` for slash-separated paths: drop empty and
single-dot components, resolve dot-dot lexically, keep rootedness, and
return a single dot for an empty result. -/
def goClean (path : String) : String :=
  if path = "" then (".")
  else
    let cs := path.toList
    let rooted : Bool := cs.head? == some '/'
    let parts := (splitSlash cs []).filter
      (fun p => !(p.isEmpty) && !(p == ['.']))
    let comps := (parts.foldl (cleanStep rooted) []).reverse
    if rooted then String.mk ('/' :: joinSlash comps)
    else if comps.isEmpty then (".") else String.mk (joinSlash comps)

/-- Go's `path/filepath.Dir`: everything up to the final slash
(exclusive of the base name), cleaned; a single dot when the path has no
slash. -/
def goDir (path : String) : String :=
  goClean (String.mk ((path.toList.reverse.dropWhile (fun c => c != '/')).reverse))

/-- Go's `path/filepath.Join` on two elements: skip leading empty
elements, join with a slash, clean. -/
def goJoin (a b : String) : String :=
  if a = "" then
    if b = "" then ("") else goClean b
  else goClean (a ++ "/" ++ b)

/-! ## Messages printed or returned by the program (`fmt` format strings
of `src/main.go`, instantiated) -/

/-- Dry-run directory-creation announcement (`ensureDirExists`). -/
def wouldCreateDirMsg (p : String) : String :=
  s!"[DRY RUN] Would create directory: {p}"

/-- Directory-creation announcement (`ensureDirExists`). -/
def creatingDirMsg (p : String) : String := s!"Creating directory: {p}"

/-- Dry-run removal announcement (`createSymlink`). -/
def wouldRemoveMsg (p : String) : String :=
  s!"[DRY RUN] Would remove existing: {p}"

/-- Removal announcement (`createSymlink`). -/
def removingMsg (p : String) : String := s!"Removing existing: {p}"

/-- Wrapped removal error (`createSymlink`). -/
def removeErrMsg (e : String) : String := s!"error removing existing path: {e}"

/-- Dry-run link-creation announcement (`createSymlink`). -/
def wouldCreateLinkMsg (l t : String) : String :=
  s!"[DRY RUN] Would create symlink: {l} -> {t}"

/-- Link-creation announcement (`createSymlink`). -/
def creatingLinkMsg (l t : String) : String := s!"Creating symlink: {l} -> {t}"

/-- Warning for a line with fewer than two fields (`setupSymlinks`). -/
def invalidLineMsg (n : Nat) (line : String) : String :=
  s!"Warning: Invalid line {n} in config file: {line}"

/-- Warning for a field that expands to the empty string
(`setupSymlinks`). -/
def invalidPathsMsg (n : Nat) (line : String) : String :=
  s!"Warning: Invalid paths at line {n} in config file: {line}"

/-- Warning for a leftover dollar sign after expansion
(`setupSymlinks`). -/
def unexpandedMsg (n : Nat) (line : String) : String :=
  s!"Warning: Unexpanded environment variables at line {n}: {line}"

/-- Dry-run raw-entry line of the per-entry block (`setupSymlinks`). -/
def dryLineMsg (n : Nat) (f0 f1 : String) : String :=
  s!"[DRY RUN] Line {n}: {f0} -> {f1}"

/-- Dry-run expanded-entry line of the per-entry block
(`setupSymlinks`). -/
def dryExpandedMsg (sp ap sd : String) : String :=
  s!"[DRY RUN] Expanded: {sp} -> {ap} (dir: {sd})"

/-- Wrapped directory-creation error (`setupSymlinks`). -/
def dirErrMsg (d e : String) : String := s!"error creating directory {d}: {e}"

/-- Wrapped per-line symlink error (`setupSymlinks`). -/
def linkLineErrMsg (n : Nat) (e : String) : String :=
  s!"error creating symlink at line {n}: {e}"

/-- Config-file-not-found error (`setupSymlinks`). -/
def notFoundMsg (cfg : String) : String :=
  s!"error: Config file not found: {cfg}"

/-- Wrapped config-open error (`setupSymlinks`). -/
def openErrMsg (e : String) : String := s!"error opening config file: {e}"

/-- Wrapped scanner error (`setupSymlinks`). -/
def scanErrMsg (e : String) : String := s!"error reading config file: {e}"

/-- Executable-path resolution error printed by `main`. -/
def execErrMsg (e : String) : String := s!"Error getting executable path: {e}"

/-- Fatal-error line printed by `main` before exiting non-zero. -/
def fatalMsg (e : String) : String := s!"Error: {e}"

/-- Header line of `setupSymlinks`. -/
def setupHeader (dryRun : Bool) (cfg : String) : Event :=
  if dryRun then .print s!"[DRY RUN] Would set up symlinks from config: {cfg}"
  else .print s!"Setting up symlinks from config: {cfg}"

/-- Completion line of `setupSymlinks`. -/
def completeEvent (dryRun : Bool) : Event :=
  if dryRun then .print ("[DRY RUN] Symlink setup complete! (No changes made)")
  else .print ("Symlink setup complete!")

/-! ## The pipeline (`src/main.go`) -/

/-- `ensureDirExists` of `src/main.go` (lines 20–30): if `os.Stat`
reports not-exist, either print the dry-run line, or print and run
`os.MkdirAll`; any other stat outcome (success or a different error) is
a silent no-op returning success. -/
def ensureDirExists (w : World) (path : String) (dryRun : Bool) : RunResult :=
  match w.stat path with
  | .notExist =>
    if dryRun then ⟨[.ensureDirCall path, .print (wouldCreateDirMsg path)], none⟩
    else
      match w.mkdirAllResult path with
      | none =>
        ⟨[.ensureDirCall path, .print (creatingDirMsg path), .mkdirAll path], none⟩
      | some e => ⟨[.ensureDirCall path, .print (creatingDirMsg path)], some e⟩
  | _ => ⟨[.ensureDirCall path], none⟩

/-- The removal half of `createSymlink` (lines 41–51): if `os.Lstat`
succeeds on the link path, remove what is there (print only, in
dry-run), wrapping a removal failure. -/
def removeStep (w : World) (symlinkPath : String) (dryRun : Bool) : RunResult :=
  if w.lstatExists symlinkPath then
    if dryRun then ⟨[.print (wouldRemoveMsg symlinkPath)], none⟩
    else
      match w.removeAllResult symlinkPath with
      | none => ⟨[.print (removingMsg symlinkPath), .removeAll symlinkPath], none⟩
      | some e => ⟨[.print (removingMsg symlinkPath)], some (removeErrMsg e)⟩
  else ⟨[], none⟩

/-- `createSymlink` of `src/main.go` (lines 40–61): the removal step,
then creation of the symlink (print only, in dry-run).  The target path
is never examined. -/
def createSymlink (w : World) (targetPath symlinkPath : String) (dryRun : Bool) :
    RunResult :=
  match removeStep w symlinkPath dryRun with
  | ⟨evs, some e⟩ => ⟨.applyLinkCall targetPath symlinkPath :: evs, some e⟩
  | ⟨evs, none⟩ =>
    if dryRun then
      ⟨.applyLinkCall targetPath symlinkPath ::
        evs ++ [.print (wouldCreateLinkMsg symlinkPath targetPath)], none⟩
    else
      match w.symlinkResult targetPath symlinkPath with
      | none =>
        ⟨.applyLinkCall targetPath symlinkPath ::
          evs ++ [.print (creatingLinkMsg symlinkPath targetPath),
            .symlink targetPath symlinkPath], none⟩
      | some e =>
        ⟨.applyLinkCall targetPath symlinkPath ::
          evs ++ [.print (creatingLinkMsg symlinkPath targetPath)], some e⟩

/-- Go's `strings.Contains` on the dollar-sign character, used by the
unexpanded-variable heuristic (line 116). -/
def containsDollar (s : String) : Bool := s.toList.contains '$'

/-- The prints emitted for an entry before its two filesystem steps: the
unexpanded-variable warning (line 116) and the dry-run information block
(lines 123–128). -/
def entryPrefix (env : String → String) (dryRun : Bool) (n : Nat)
    (line f0 f1 : String) : List Event :=
  (if containsDollar (expandPath env f0) ∨ containsDollar (expandPath env f1) then
      [.print (unexpandedMsg n line)]
    else [])
  ++ (if dryRun then
      [.print ("\n"),
       .print (dryLineMsg n f0 f1),
       .print (dryExpandedMsg (expandPath env f0) (expandPath env f1)
         (goDir (expandPath env f0)))]
    else [])

/-- Processing of one data line whose first two whitespace-delimited
fields are `f0` and `f1` (lines 105–138 of `src/main.go`): expand both
fields, warn and skip when one expands empty, emit `entryPrefix`, then
`ensureDirExists` on the parent directory of the expanded link path
followed by `createSymlink`, wrapping either step's error. -/
def processEntry (w : World) (env : String → String) (dryRun : Bool)
    (n : Nat) (line f0 f1 : String) : RunResult :=
  if expandPath env f0 = "" ∨ expandPath env f1 = "" then
    ⟨[.print (invalidPathsMsg n line)], none⟩
  else
    match ensureDirExists w (goDir (expandPath env f0)) dryRun with
    | ⟨ev1, some e⟩ =>
      ⟨entryPrefix env dryRun n line f0 f1 ++ ev1,
        some (dirErrMsg (goDir (expandPath env f0)) e)⟩
    | ⟨ev1, none⟩ =>
      match createSymlink w (expandPath env f1) (expandPath env f0) dryRun with
      | ⟨ev2, some e⟩ =>
        ⟨entryPrefix env dryRun n line f0 f1 ++ ev1 ++ ev2,
          some (linkLineErrMsg n e)⟩
      | ⟨ev2, none⟩ =>
        ⟨entryPrefix env dryRun n line f0 f1 ++ ev1 ++ ev2, none⟩

/-- Processing of one scanned line (lines 89–138 of `src/main.go`): skip
empty and comment lines silently, warn on fewer than two fields,
otherwise process the entry built from the first two fields. -/
def processLine (w : World) (env : String → String) (dryRun : Bool)
    (n : Nat) (line : String) : RunResult :=
  if line = "" ∨ commentMatch line then ⟨[], none⟩
  else
    match goFields line with
    | f0 :: f1 :: _ => processEntry w env dryRun n line f0 f1
    | _ => ⟨[.print (invalidLineMsg n line)], none⟩

/-- The scan loop of `setupSymlinks`: process lines in order with
1-based numbering, stopping at the first line whose processing returns
an error. -/
def processLines (w : World) (env : String → String) (dryRun : Bool) :
    List String → Nat → RunResult
  | [], _ => ⟨[], none⟩
  | line :: rest, n =>
    match processLine w env dryRun n line with
    | ⟨evs, some e⟩ => ⟨evs, some e⟩
    | ⟨evs, none⟩ =>
      ⟨evs ++ (processLines w env dryRun rest (n + 1)).events,
        (processLines w env dryRun rest (n + 1)).err⟩

/-- `setupSymlinks` of `src/main.go` (lines 64–151): fail if the config
file does not exist, print the header, open the file, run the scan loop
from line 1, surface a scanner error, and print the completion line. -/
def setupSymlinks (w : World) (env : String → String) (configFilePath : String)
    (cfgLines : List String) (dryRun : Bool) : RunResult :=
  if w.stat configFilePath = .notExist then
    ⟨[], some (notFoundMsg configFilePath)⟩
  else
    match w.openResult configFilePath with
    | some e => ⟨[setupHeader dryRun configFilePath], some (openErrMsg e)⟩
    | none =>
      match processLines w env dryRun cfgLines 1 with
      | ⟨evs, some e⟩ => ⟨setupHeader dryRun configFilePath :: evs, some e⟩
      | ⟨evs, none⟩ =>
        match w.scanErr with
        | some e =>
          ⟨setupHeader dryRun configFilePath :: evs, some (scanErrMsg e)⟩
        | none =>
          ⟨setupHeader dryRun configFilePath :: evs ++ [completeEvent dryRun],
            none⟩

/-- The diagnostic environment variables listed in
`printEnvironmentInfo`. -/
def commonVars : List String :=
  ["HOME", "USER", "XDG_CONFIG_HOME", "DOTFILES_HOME", "TOOLS_DIR", "NOTES_DIR"]

/-- The banner separator line: fifty-one equals signs. -/
def sepLine : String := String.mk (List.replicate 51 '=')

/-- One diagnostic variable line of the banner: printed only when the
variable is set to a non-empty value. -/
def envVarMsg (v val : String) : String := s!"  {v}: {val}"

/-- The optional banner line for one diagnostic variable. -/
def envVarLine (env : String → String) (v : String) : Option Event :=
  if env v = "" then none else some (.print (envVarMsg v (env v)))

/-- `printEnvironmentInfo` of `src/main.go` (lines 188–203): in dry-run
mode, the banner and the values of the set diagnostic variables;
otherwise nothing.  (The decorative glyph prefixing the banner in the
source is elided.) -/
def printEnvironmentInfo (env : String → String) (dryRun : Bool) : List Event :=
  if dryRun then
    [.print ("DRY RUN MODE - No changes will be made"),
     .print sepLine,
     .print ("Current environment variables:")]
    ++ commonVars.filterMap (envVarLine env)
    ++ [.print sepLine]
  else []

/-- Config-path resolution in `main`: the positional argument when
present, otherwise `symlinker.conf` next to the executable. -/
def resolveConfig (execDir : String) (positional : Option String) : String :=
  match positional with
  | some p => p
  | none => goJoin execDir ("symlinker.conf")

/-- `main` of `src/main.go` (lines 205–239) on the non-help path (the
help flag prints usage and exits 0 before anything else happens):
resolve the executable directory (fatal on failure), resolve the config
path, print the dry-run environment banner, run `setupSymlinks`, and on
error print it and exit 1.  Returns the exit code and the full stdout
trace. -/
def mainRun (w : World) (env : String → String) (execDir : Except String String)
    (cfgLines : List String) (dryRun : Bool) (positional : Option String) :
    Nat × List Event :=
  match execDir with
  | .error e => (1, [.print (execErrMsg e)])
  | .ok d =>
    match setupSymlinks w env (resolveConfig d positional) cfgLines dryRun with
    | ⟨evs, some e⟩ =>
      (1, printEnvironmentInfo env dryRun ++ evs ++ [.print (fatalMsg e)])
    | ⟨evs, none⟩ => (0, printEnvironmentInfo env dryRun ++ evs)

/-! ## Trace-shape lemmas -/

theorem mutations_append (a b : List Event) :
    mutations (a ++ b) = mutations a ++ mutations b :=
  List.filter_append ..

theorem callTrace_append (a b : List Event) :
    callTrace (a ++ b) = callTrace a ++ callTrace b :=
  List.filter_append ..

theorem ensureDir_callTrace (w : World) (p : String) (d : Bool) :
    callTrace (ensureDirExists w p d).events = [Event.ensureDirCall p] := by
  cases hs : w.stat p <;> cases d <;>
    simp [ensureDirExists, hs, callTrace, Event.isFsCall, List.filter]
  all_goals cases hm : w.mkdirAllResult p <;>
    simp [hm, callTrace, Event.isFsCall, List.filter]

theorem removeStep_no_calls (w : World) (l : String) (d : Bool) :
    callTrace (removeStep w l d).events = [] := by
  cases hl : w.lstatExists l <;> cases d <;>
    simp [removeStep, hl, callTrace, Event.isFsCall, List.filter]
  cases hr : w.removeAllResult l <;>
    simp [hr, callTrace, Event.isFsCall, List.filter]

theorem forall_not_of_filter_nil {p : Event → Bool} {evs : List Event}
    (h : List.filter p evs = []) : ∀ a ∈ evs, p a = false := by
  intro a ha
  simpa using List.filter_eq_nil_iff.mp h a ha

theorem createSymlink_callTrace (w : World) (t l : String) (d : Bool) :
    callTrace (createSymlink w t l d).events = [Event.applyLinkCall t l] := by
  have hrm := removeStep_no_calls w l d
  cases hrs : removeStep w l d with
  | mk evs err =>
    rw [hrs] at hrm
    replace hrm : List.filter Event.isFsCall evs = [] := hrm
    have hrm' := forall_not_of_filter_nil hrm
    cases err with
    | some e =>
      simp [createSymlink, hrs, callTrace, List.filter_cons, List.filter_append,
        Event.isFsCall, List.filter_eq_nil_iff]
      exact fun a ha => hrm' a ha
    | none =>
      cases d with
      | true =>
        simp [createSymlink, hrs, callTrace, List.filter_cons,
          List.filter_append, Event.isFsCall, List.filter_eq_nil_iff]
        exact fun a ha => hrm' a ha
      | false =>
        cases hm : w.symlinkResult t l <;>
          simp [createSymlink, hrs, hm, callTrace, List.filter_cons,
            List.filter_append, Event.isFsCall, List.filter_eq_nil_iff] <;>
          exact fun a ha => hrm' a ha

theorem entryPrefix_mutations (env : String → String) (d : Bool) (n : Nat)
    (line f0 f1 : String) :
    mutations (entryPrefix env d n line f0 f1) = [] := by
  unfold entryPrefix
  split <;> cases d <;>
    simp [mutations, Event.isMutation, List.filter, List.filter_append]

theorem entryPrefix_no_calls (env : String → String) (d : Bool) (n : Nat)
    (line f0 f1 : String) :
    callTrace (entryPrefix env d n line f0 f1) = [] := by
  unfold entryPrefix
  split <;> cases d <;>
    simp [callTrace, Event.isFsCall, List.filter, List.filter_append]

/-! ## Dry-run lemmas: in dry-run mode every step succeeds and emits no
filesystem mutation -/

theorem ensureDir_dry (w : World) (p : String) :
    mutations (ensureDirExists w p true).events = [] ∧
      (ensureDirExists w p true).err = none := by
  cases hs : w.stat p <;>
    simp [ensureDirExists, hs, mutations, Event.isMutation, List.filter]

theorem removeStep_dry (w : World) (l : String) :
    mutations (removeStep w l true).events = [] ∧
      (removeStep w l true).err = none := by
  cases hl : w.lstatExists l <;>
    simp [removeStep, hl, mutations, Event.isMutation, List.filter]

theorem createSymlink_dry (w : World) (t l : String) :
    mutations (createSymlink w t l true).events = [] ∧
      (createSymlink w t l true).err = none := by
  have h := removeStep_dry w l
  cases hrs : removeStep w l true with
  | mk evs err =>
    rw [hrs] at h
    obtain ⟨hm, he⟩ := h
    replace hm : List.filter Event.isMutation evs = [] := hm
    replace he : err = none := he
    subst he
    have hm' := forall_not_of_filter_nil hm
    simp [createSymlink, hrs, mutations, mutations_append, List.filter_cons,
      Event.isMutation, List.filter, List.filter_eq_nil_iff]
    exact fun a ha => hm' a ha

theorem processEntry_dry (w : World) (env : String → String) (n : Nat)
    (line f0 f1 : String) :
    mutations (processEntry w env true n line f0 f1).events = [] ∧
      (processEntry w env true n line f0 f1).err = none := by
  by_cases hemp : expandPath env f0 = "" ∨ expandPath env f1 = ""
  · simp [processEntry, hemp, mutations, Event.isMutation, List.filter]
  · have h1 := ensureDir_dry w (goDir (expandPath env f0))
    have hpre := entryPrefix_mutations env true n line f0 f1
    cases he : ensureDirExists w (goDir (expandPath env f0)) true with
    | mk ev1 err1 =>
      rw [he] at h1
      obtain ⟨h1m, h1e⟩ := h1
      simp only at h1m h1e
      subst h1e
      have h2 := createSymlink_dry w (expandPath env f1) (expandPath env f0)
      cases hc : createSymlink w (expandPath env f1) (expandPath env f0) true with
      | mk ev2 err2 =>
        rw [hc] at h2
        obtain ⟨h2m, h2e⟩ := h2
        simp only at h2m h2e
        subst h2e
        simp [processEntry, hemp, he, hc, mutations_append, hpre, h1m, h2m]

theorem processLine_dry (w : World) (env : String → String) (n : Nat)
    (line : String) :
    mutations (processLine w env true n line).events = [] ∧
      (processLine w env true n line).err = none := by
  unfold processLine
  split
  · simp [mutations]
  · split
    · exact processEntry_dry ..
    · simp [mutations, Event.isMutation, List.filter]

theorem processLines_dry (w : World) (env : String → String)
    (lines : List String) (n : Nat) :
    mutations (processLines w env true lines n).events = [] ∧
      (processLines w env true lines n).err = none := by
  induction lines generalizing n with
  | nil => simp [processLines, mutations, List.filter]
  | cons line rest ih =>
    have h := processLine_dry w env n line
    cases hl : processLine w env true n line with
    | mk evs err =>
      rw [hl] at h
      obtain ⟨hm, he⟩ := h
      simp only at hm he
      subst he
      simp [processLines, hl, mutations_append, hm, (ih (n + 1)).1,
        (ih (n + 1)).2]

theorem setupSymlinks_dry_mutations (w : World) (env : String → String)
    (cfg : String) (lines : List String) :
    mutations (setupSymlinks w env cfg lines true).events = [] := by
  have hb := processLines_dry w env lines 1
  unfold setupSymlinks
  split
  · simp [mutations, List.filter]
  · cases ho : w.openResult cfg
    · cases hp : processLines w env true lines 1 with
      | mk evs err =>
        rw [hp] at hb
        obtain ⟨hm, he⟩ := hb
        replace hm : List.filter Event.isMutation evs = [] := hm
        replace he : err = none := he
        subst he
        have hm' := forall_not_of_filter_nil hm
        cases hs : w.scanErr <;>
          simp [mutations, mutations_append, List.filter_cons,
            Event.isMutation, setupHeader, completeEvent, List.filter,
            List.filter_eq_nil_iff] <;>
          exact fun a ha => hm' a ha
    · simp [mutations, Event.isMutation, List.filter, setupHeader]

theorem mutations_filterMap (l : List String) (f : String → Option Event)
    (h : ∀ v e, f v = some e → e.isMutation = false) :
    mutations (l.filterMap f) = [] := by
  induction l with
  | nil => rfl
  | cons x xs ih =>
    rw [List.filterMap_cons]
    cases hf : f x
    · exact ih
    · rw [mutations, List.filter_cons]
      simp only [h x _ hf]
      exact ih

theorem printEnvironmentInfo_mutations (env : String → String) (d : Bool) :
    mutations (printEnvironmentInfo env d) = [] := by
  cases d
  · simp [printEnvironmentInfo, mutations, List.filter]
  · have hmid : mutations (commonVars.filterMap (envVarLine env)) = [] := by
      refine mutations_filterMap _ _ ?_
      intro v e hf
      unfold envVarLine at hf
      split at hf
      · cases hf
      · cases hf
        rfl
    unfold printEnvironmentInfo
    rw [if_pos rfl, mutations_append, mutations_append, hmid]
    simp [mutations, List.filter, Event.isMutation]

theorem no_mutation_applyEvents (fs : String → Option FsKind)
    (evs : List Event) (h : mutations evs = []) : applyEvents fs evs = fs := by
  induction evs generalizing fs with
  | nil => rfl
  | cons e rest ih =>
    rw [mutations, List.filter_cons] at h
    cases he : e.isMutation
    · rw [he] at h
      simp only [Bool.false_eq_true, if_false] at h
      have hfs : applyEvent fs e = fs := by
        cases e <;> first | rfl | (simp [Event.isMutation] at he)
      rw [applyEvents, List.foldl_cons, hfs]
      exact ih fs h
    · rw [he] at h
      simp at h

/-! ## Claim C1: dry-run never mutates the filesystem -/

/-- C1: for every config file and every process environment, running in
dry-run mode performs no filesystem mutation — no directory is created,
no existing entry is removed, no symlink is created — and the abstract
filesystem is unchanged by the emitted trace. -/
theorem dryRun_preserves_filesystem (w : World) (env : String → String)
    (execDir : Except String String) (cfgLines : List String)
    (positional : Option String) (fs : String → Option FsKind) :
    mutations (mainRun w env execDir cfgLines true positional).2 = [] ∧
      applyEvents fs (mainRun w env execDir cfgLines true positional).2 = fs := by
  have hmut : mutations (mainRun w env execDir cfgLines true positional).2 = [] := by
    cases execDir with
    | error e => simp [mainRun, mutations, List.filter, Event.isMutation]
    | ok d =>
      have hs := setupSymlinks_dry_mutations w env (resolveConfig d positional)
        cfgLines
      cases hsetup : setupSymlinks w env (resolveConfig d positional) cfgLines
          true with
      | mk evs err =>
        rw [hsetup] at hs
        replace hs : mutations evs = [] := hs
        cases err with
        | some e =>
          have hout : (mainRun w env (.ok d) cfgLines true positional).2 =
              printEnvironmentInfo env true ++ evs ++ [.print (fatalMsg e)] := by
            simp [mainRun, hsetup]
          rw [hout, mutations_append, mutations_append, hs,
            printEnvironmentInfo_mutations]
          simp [mutations, List.filter, Event.isMutation]
        | none =>
          have hout : (mainRun w env (.ok d) cfgLines true positional).2 =
              printEnvironmentInfo env true ++ evs := by
            simp [mainRun, hsetup]
          rw [hout, mutations_append, hs, printEnvironmentInfo_mutations]
          rfl
  exact ⟨hmut, no_mutation_applyEvents fs _ hmut⟩

/-! ## Line-classification helper lemmas -/

theorem dropWhile_mem {p : Char → Bool} :
    ∀ {l : List Char} {c : Char}, c ∈ l.dropWhile p → c ∈ l := by
  intro l
  induction l with
  | nil => intro c h; simp [List.dropWhile] at h
  | cons a as ih =>
    intro c h
    by_cases hp : p a = true
    · rw [List.dropWhile_cons_of_pos hp] at h
      exact List.mem_cons_of_mem a (ih h)
    · rw [List.dropWhile_cons_of_neg hp] at h
      exact h

theorem commentMatch_false_of_space (line : String)
    (hsp : ∀ c ∈ line.toList, isGoSpace c = true) : commentMatch line = false := by
  unfold commentMatch
  cases hd : line.toList.dropWhile regexSpace with
  | nil => rfl
  | cons c cs =>
    have hmem : c ∈ line.toList :=
      dropWhile_mem (by rw [hd]; exact List.mem_cons_self c cs)
    have hgo := hsp c hmem
    have hneq : c ≠ '#' := by
      intro h
      rw [h] at hgo
      exact absurd hgo (by decide)
    simp [hneq]

theorem fieldsCore_space_nil :
    ∀ (l : List Char), (∀ c ∈ l, isGoSpace c = true) → fieldsCore l [] = [] := by
  intro l
  induction l with
  | nil => intro _; rfl
  | cons c cs ih =>
    intro h
    unfold fieldsCore
    rw [if_pos (h c (List.mem_cons_self c cs))]
    rw [if_pos (show (List.isEmpty ([] : List Char)) = true from rfl)]
    exact ih (fun a ha => h a (List.mem_cons_of_mem _ ha))

/-- The call trace of one well-formed data line: one directory-ensure on
the parent of the expanded link path, then one link-apply (shared
backbone of the per-entry control-flow claims). -/
theorem processLine_calls_aux (w : World) (env : String → String)
    (dryRun : Bool) (n : Nat) (line f0 f1 : String) (rest : List String)
    (hne : line ≠ "") (hnc : commentMatch line = false)
    (hf : goFields line = f0 :: f1 :: rest)
    (h0 : expandPath env f0 ≠ "") (h1 : expandPath env f1 ≠ "")
    (hok : (ensureDirExists w (goDir (expandPath env f0)) dryRun).err = none) :
    callTrace (processLine w env dryRun n line).events =
      [.ensureDirCall (goDir (expandPath env f0)),
       .applyLinkCall (expandPath env f1) (expandPath env f0)] := by
  unfold processLine
  rw [if_neg (by simp [hne, hnc]), hf]
  show callTrace (processEntry w env dryRun n line f0 f1).events = _
  unfold processEntry
  rw [if_neg (by simp [h0, h1])]
  cases he : ensureDirExists w (goDir (expandPath env f0)) dryRun with
  | mk ev1 err1 =>
    replace hok : err1 = none := by rw [he] at hok; exact hok
    subst hok
    have hc1 : callTrace ev1 = [.ensureDirCall (goDir (expandPath env f0))] := by
      have h := ensureDir_callTrace w (goDir (expandPath env f0)) dryRun
      rw [he] at h
      exact h
    cases hc : createSymlink w (expandPath env f1) (expandPath env f0) dryRun with
    | mk ev2 err2 =>
      have hc2 : callTrace ev2 =
          [.applyLinkCall (expandPath env f1) (expandPath env f0)] := by
        have h := createSymlink_callTrace w (expandPath env f1)
          (expandPath env f0) dryRun
        rw [hc] at h
        exact h
      cases err2 <;>
        simp [callTrace_append, hc1, hc2, entryPrefix_no_calls]

/-! ## Witness worlds and environments (concrete instantiations used by
the witness theorems) -/

/-- A world where nothing exists and every operation succeeds. -/
def wOK : World where
  stat := fun _ => .notExist
  lstatExists := fun _ => false
  mkdirAllResult := fun _ => none
  removeAllResult := fun _ => none
  symlinkResult := fun _ _ => none
  openResult := fun _ => none
  scanErr := none

/-- A sample environment with two set variables. -/
def envU : String → String := fun v =>
  if v = "HOME" then ("/home/u")
  else if v = "TOOLS_DIR" then ("/opt/tools")
  else ""

/-- A world whose stat calls fail with a non-not-exist error. -/
def wStatErr : World := { wOK with stat := fun _ => .otherErr }

/-- A world where every path is occupied (lstat succeeds). -/
def wExisting : World := { wOK with lstatExists := fun _ => true }

/-! ## Claim C4: blank and comment lines are skipped silently -/

/-- C4: a config line that is empty, or whose first character after
optional leading whitespace is a hash mark (the `commentRegex` match),
is skipped silently: processing of the line emits no events at all — in
particular no warning print and no filesystem call — and no error. -/
theorem blank_or_comment_line_skipped (w : World) (env : String → String)
    (dryRun : Bool) (n : Nat) (line : String)
    (h : line = "" ∨ commentMatch line = true) :
    processLine w env dryRun n line = ⟨[], none⟩ := by
  unfold processLine
  rcases h with h | h
  · rw [if_pos (Or.inl h)]
  · rw [if_pos (Or.inr h)]

/-- Witness for C4 at a concrete comment line. -/
theorem blank_or_comment_line_skipped_witness :
    commentMatch ("# ZSH config") = true ∧
    processLine wOK envU false 1 ("# ZSH config") = ⟨[], none⟩ :=
  ⟨by decide,
   blank_or_comment_line_skipped wOK envU false 1 ("# ZSH config")
     (Or.inr (by decide))⟩

/-! ## Claim C5: malformed lines and empty expanded fields warn and
continue -/

/-- C5: a non-blank, non-comment line with fewer than two fields yields
exactly the invalid-line warning naming the 1-based line number; one
whose expanded fields include an empty one yields exactly the
invalid-paths warning; in both cases no filesystem call marker and no
mutation is emitted and no error is returned, and any line whose
processing returns no error lets the scan loop continue with the next
line at the next line number. -/
theorem malformed_or_empty_warns_and_continues (w : World)
    (env : String → String) (dryRun : Bool) (n : Nat) (line : String)
    (hne : line ≠ "") (hnc : commentMatch line = false) :
    ((goFields line).length < 2 →
      processLine w env dryRun n line =
        ⟨[.print (invalidLineMsg n line)], none⟩) ∧
    (∀ f0 f1 rest, goFields line = f0 :: f1 :: rest →
      (expandPath env f0 = "" ∨ expandPath env f1 = "") →
      processLine w env dryRun n line =
        ⟨[.print (invalidPathsMsg n line)], none⟩) ∧
    (∀ rest, (processLine w env dryRun n line).err = none →
      processLines w env dryRun (line :: rest) n =
        ⟨(processLine w env dryRun n line).events ++
            (processLines w env dryRun rest (n + 1)).events,
          (processLines w env dryRun rest (n + 1)).err⟩) := by
  refine ⟨?_, ?_, ?_⟩
  · intro hlen
    unfold processLine
    rw [if_neg (by simp [hne, hnc])]
    rcases hg : goFields line with _ | ⟨f0, _ | ⟨f1, fr⟩⟩
    · rfl
    · rfl
    · exfalso
      rw [hg] at hlen
      simp only [List.length_cons] at hlen
      omega
  · intro f0 f1 fr hg hempty
    unfold processLine
    rw [if_neg (by simp [hne, hnc]), hg]
    show processEntry w env dryRun n line f0 f1 = _
    unfold processEntry
    rw [if_pos hempty]
  · intro rest herr
    cases hpl : processLine w env dryRun n line with
    | mk evs err =>
      replace herr : err = none := by rw [hpl] at herr; exact herr
      subst herr
      simp only [processLines]
      rw [hpl]

/-- Witness for C5: a one-token line warns as invalid, a line whose
first field expands empty warns as invalid paths. -/
theorem malformed_or_empty_warns_witness :
    (processLine wOK envU false 1 ("$HOME/.zshrc") =
      ⟨[.print (invalidLineMsg 1 ("$HOME/.zshrc"))], none⟩) ∧
    (processLine wOK envU false 2 ("$UNSET_VAR $HOME") =
      ⟨[.print (invalidPathsMsg 2 ("$UNSET_VAR $HOME"))], none⟩) :=
  ⟨(malformed_or_empty_warns_and_continues wOK envU false 1 ("$HOME/.zshrc")
      (by decide) (by decide)).1 (by decide),
   (malformed_or_empty_warns_and_continues wOK envU false 2 ("$UNSET_VAR $HOME")
      (by decide) (by decide)).2.1 ("$UNSET_VAR") ("$HOME") [] (by decide)
      (Or.inl (by decide))⟩

/-! ## Claim C9: whitespace-only lines are malformed, not blank -/

/-- C9: a non-empty line consisting only of whitespace characters is not
treated as blank: it does not match the comment regular expression,
whitespace splitting yields zero fields, and the line produces the
malformed-line warning naming its line number instead of being skipped
silently. -/
theorem whitespace_only_line_warns (w : World) (env : String → String)
    (dryRun : Bool) (n : Nat) (line : String) (hne : line ≠ "")
    (hsp : ∀ c ∈ line.toList, isGoSpace c = true) :
    commentMatch line = false ∧ goFields line = [] ∧
    processLine w env dryRun n line =
      ⟨[.print (invalidLineMsg n line)], none⟩ := by
  have hcm := commentMatch_false_of_space line hsp
  have hfl : goFields line = [] := fieldsCore_space_nil line.toList hsp
  refine ⟨hcm, hfl, ?_⟩
  unfold processLine
  rw [if_neg (by simp [hne, hcm]), hfl]

/-- Witness for C9 at a line holding one space character. -/
theorem whitespace_only_line_warns_witness :
    commentMatch (" ") = false ∧ goFields (" ") = [] ∧
    processLine wOK envU false 3 (" ") =
      ⟨[.print (invalidLineMsg 3 (" "))], none⟩ :=
  whitespace_only_line_warns wOK envU false 3 (" ") (by decide) (by decide)

/-! ## Claim C2: one directory-ensure then one link-apply per
well-formed entry -/

/-- C2: for a processed config line that is well-formed (at least two
whitespace-delimited fields, not blank, not a comment) and whose two
fields are non-empty after environment-variable expansion, and whose
directory-ensure step does not fail (on failure the run aborts before
the link step), the line performs exactly one directory-ensure
operation — on the parent directory of the expanded link path —
followed by exactly one link-apply operation, in that order. -/
theorem wellformed_line_one_ensure_one_apply (w : World)
    (env : String → String) (dryRun : Bool) (n : Nat)
    (line f0 f1 : String) (rest : List String)
    (hne : line ≠ "") (hnc : commentMatch line = false)
    (hf : goFields line = f0 :: f1 :: rest)
    (h0 : expandPath env f0 ≠ "") (h1 : expandPath env f1 ≠ "")
    (hok : (ensureDirExists w (goDir (expandPath env f0)) dryRun).err = none) :
    callTrace (processLine w env dryRun n line).events =
      [.ensureDirCall (goDir (expandPath env f0)),
       .applyLinkCall (expandPath env f1) (expandPath env f0)] :=
  processLine_calls_aux w env dryRun n line f0 f1 rest hne hnc hf h0 h1 hok

/-- Witness for C2 at the sample entry from the repository's README. -/
theorem wellformed_line_one_ensure_one_apply_witness :
    callTrace (processLine wOK envU false 1
        ("$HOME/.zshrc $TOOLS_DIR/.zshrc")).events =
      [.ensureDirCall (goDir (expandPath envU ("$HOME/.zshrc"))),
       .applyLinkCall (expandPath envU ("$TOOLS_DIR/.zshrc"))
         (expandPath envU ("$HOME/.zshrc"))] :=
  wellformed_line_one_ensure_one_apply wOK envU false 1
    ("$HOME/.zshrc $TOOLS_DIR/.zshrc") ("$HOME/.zshrc") ("$TOOLS_DIR/.zshrc")
    [] (by decide) (by decide) (by decide) (by decide) (by decide) (by decide)

/-! ## Claim C10: a non-not-exist stat error makes directory-ensure a
silent successful no-op -/

/-- C10: when stat on a path fails with an error other than not-exist,
`ensureDirExists` returns success having created nothing and reported
nothing (its trace holds only the call marker); consequently a
well-formed entry whose link-directory stats that way proceeds directly
to the link-apply step. -/
theorem stat_other_error_silent_noop (w : World) (path : String)
    (dryRun : Bool) (h : w.stat path = .otherErr) :
    ensureDirExists w path dryRun = ⟨[.ensureDirCall path], none⟩ ∧
    (∀ env n line f0 f1 rest, line ≠ "" → commentMatch line = false →
      goFields line = f0 :: f1 :: rest →
      expandPath env f0 ≠ "" → expandPath env f1 ≠ "" →
      goDir (expandPath env f0) = path →
      callTrace (processLine w env dryRun n line).events =
        [.ensureDirCall path,
         .applyLinkCall (expandPath env f1) (expandPath env f0)]) := by
  have hnoop : ensureDirExists w path dryRun = ⟨[.ensureDirCall path], none⟩ := by
    simp [ensureDirExists, h]
  refine ⟨hnoop, ?_⟩
  intro env n line f0 f1 rest hne hnc hf he0 he1 hdir
  have hcall := processLine_calls_aux w env dryRun n line f0 f1 rest hne hnc hf
    he0 he1 (by rw [hdir, hnoop])
  rw [hdir] at hcall
  exact hcall

/-- Witness for C10: with a permission-style stat failure on the parent
directory, the entry still reaches the link-apply step. -/
theorem stat_other_error_silent_noop_witness :
    ensureDirExists wStatErr ("/home/u") false =
      ⟨[.ensureDirCall ("/home/u")], none⟩ ∧
    callTrace (processLine wStatErr envU false 1
        ("$HOME/.zshrc $TOOLS_DIR/.zshrc")).events =
      [.ensureDirCall ("/home/u"),
       .applyLinkCall (expandPath envU ("$TOOLS_DIR/.zshrc"))
         (expandPath envU ("$HOME/.zshrc"))] :=
  ⟨(stat_other_error_silent_noop wStatErr ("/home/u") false (by decide)).1,
   (stat_other_error_silent_noop wStatErr ("/home/u") false (by decide)).2
     envU 1 ("$HOME/.zshrc $TOOLS_DIR/.zshrc") ("$HOME/.zshrc")
     ("$TOOLS_DIR/.zshrc") [] (by decide) (by decide) (by decide) (by decide)
     (by decide) (by decide)⟩

/-! ## Claim C6: apply mode replaces whatever occupies the link path and
never validates the target -/

/-- C6: in apply mode, when `os.Lstat` reports something at the link
path it is removed (recursively, via `os.RemoveAll`) before the symlink
to the target is created; when nothing is there, the symlink is created
directly; and the outcome depends only on the world's view of the link
path — in particular never on a stat of the target path — so dangling
links are permitted. -/
theorem apply_mode_replace_and_link (w : World) (t l : String)
    (hrm : w.removeAllResult l = none) (hsl : w.symlinkResult t l = none) :
    (w.lstatExists l = true →
      createSymlink w t l false =
        ⟨[.applyLinkCall t l, .print (removingMsg l), .removeAll l,
          .print (creatingLinkMsg l t), .symlink t l], none⟩) ∧
    (w.lstatExists l = false →
      createSymlink w t l false =
        ⟨[.applyLinkCall t l, .print (creatingLinkMsg l t), .symlink t l],
          none⟩) ∧
    (∀ w2 : World, w2.lstatExists l = w.lstatExists l →
      w2.removeAllResult l = w.removeAllResult l →
      (∀ t2, w2.symlinkResult t2 l = w.symlinkResult t2 l) →
      createSymlink w2 t l false = createSymlink w t l false) := by
  refine ⟨?_, ?_, ?_⟩
  · intro hl
    simp [createSymlink, removeStep, hl, hrm, hsl]
  · intro hl
    simp [createSymlink, removeStep, hl, hsl]
  · intro w2 hl2 hr2 hs2
    unfold createSymlink removeStep
    rw [hl2, hr2, hs2 t]

/-- Witness for C6: an occupied link path is removed then re-linked; an
unoccupied one is linked directly. -/
theorem apply_mode_replace_and_link_witness :
    (createSymlink wExisting ("/opt/tools/.zshrc") ("/home/u/.zshrc") false =
      ⟨[.applyLinkCall ("/opt/tools/.zshrc") ("/home/u/.zshrc"),
        .print (removingMsg ("/home/u/.zshrc")),
        .removeAll ("/home/u/.zshrc"),
        .print (creatingLinkMsg ("/home/u/.zshrc") ("/opt/tools/.zshrc")),
        .symlink ("/opt/tools/.zshrc") ("/home/u/.zshrc")], none⟩) ∧
    (createSymlink wOK ("/opt/tools/.zshrc") ("/home/u/.zshrc") false =
      ⟨[.applyLinkCall ("/opt/tools/.zshrc") ("/home/u/.zshrc"),
        .print (creatingLinkMsg ("/home/u/.zshrc") ("/opt/tools/.zshrc")),
        .symlink ("/opt/tools/.zshrc") ("/home/u/.zshrc")], none⟩) :=
  ⟨(apply_mode_replace_and_link wExisting ("/opt/tools/.zshrc")
      ("/home/u/.zshrc") (by decide) (by decide)).1 (by decide),
   (apply_mode_replace_and_link wOK ("/opt/tools/.zshrc")
      ("/home/u/.zshrc") (by decide) (by decide)).2.1 (by decide)⟩

/-! ## Claim C7: apply-mode step failures abort the run -/

/-- C7: in apply mode a directory-creation failure, a link-removal
failure, or a link-creation failure is an error of the corresponding
per-entry step; a line whose processing errors truncates the scan loop
so that no subsequent config line is processed; and an erroring
`setupSymlinks` makes `main` print the error message and exit 1. -/
theorem entry_failure_aborts_run (w : World) (env : String → String) :
    (∀ path e, w.stat path = .notExist → w.mkdirAllResult path = some e →
      (ensureDirExists w path false).err = some e) ∧
    (∀ t l e, w.lstatExists l = true → w.removeAllResult l = some e →
      (createSymlink w t l false).err = some (removeErrMsg e)) ∧
    (∀ t l e, w.lstatExists l = false → w.symlinkResult t l = some e →
      (createSymlink w t l false).err = some e) ∧
    (∀ n line rest e, (processLine w env false n line).err = some e →
      processLines w env false (line :: rest) n =
        ⟨(processLine w env false n line).events, some e⟩) ∧
    (∀ d cfg lines e, (setupSymlinks w env cfg lines false).err = some e →
      mainRun w env (.ok d) lines false (some cfg) =
        (1, (setupSymlinks w env cfg lines false).events ++
          [.print (fatalMsg e)])) := by
  refine ⟨?_, ?_, ?_, ?_, ?_⟩
  · intro path e h1 h2
    simp [ensureDirExists, h1, h2]
  · intro t l e h1 h2
    simp [createSymlink, removeStep, h1, h2]
  · intro t l e h1 h2
    simp [createSymlink, removeStep, h1, h2]
  · intro n line rest e herr
    cases hpl : processLine w env false n line with
    | mk evs err =>
      replace herr : err = some e := by rw [hpl] at herr; exact herr
      subst herr
      simp only [processLines]
      rw [hpl]
  · intro d cfg lines e herr
    cases hst : setupSymlinks w env cfg lines false with
    | mk evs err =>
      replace herr : err = some e := by rw [hst] at herr; exact herr
      subst herr
      have hres : resolveConfig d (some cfg) = cfg := rfl
      simp only [mainRun]
      rw [hres, hst]
      rfl

/-- A world where the config file exists but every directory creation
fails. -/
def wMkdirFail : World where
  stat := fun p => if p = "/cfg" then .ok else .notExist
  lstatExists := fun _ => false
  mkdirAllResult := fun _ => some ("boom")
  removeAllResult := fun _ => none
  symlinkResult := fun _ _ => none
  openResult := fun _ => none
  scanErr := none

/-- A world where the link path is occupied and removal fails. -/
def wRmFail : World :=
  { wOK with lstatExists := fun _ => true,
             removeAllResult := fun _ => some ("busy") }

/-- A world where symlink creation fails. -/
def wLinkFail : World := { wOK with symlinkResult := fun _ _ => some ("eperm") }

/-- Witness for C7: each failure kind errs, the failing line truncates
the scan, and the whole run exits 1 with the error printed last. -/
theorem entry_failure_aborts_run_witness :
    ((ensureDirExists wMkdirFail ("/home/u") false).err = some ("boom")) ∧
    ((createSymlink wRmFail ("/t") ("/l") false).err =
      some (removeErrMsg ("busy"))) ∧
    ((createSymlink wLinkFail ("/t") ("/l") false).err = some ("eperm")) ∧
    (processLines wMkdirFail envU false
        [("$HOME/a $HOME/b"), ("$HOME/c $HOME/d")] 1 =
      ⟨(processLine wMkdirFail envU false 1 ("$HOME/a $HOME/b")).events,
        some (dirErrMsg ("/home/u") ("boom"))⟩) ∧
    (mainRun wMkdirFail envU (.ok ("/bin"))
        [("$HOME/a $HOME/b"), ("$HOME/c $HOME/d")] false (some ("/cfg")) =
      (1, (setupSymlinks wMkdirFail envU ("/cfg")
            [("$HOME/a $HOME/b"), ("$HOME/c $HOME/d")] false).events ++
        [.print (fatalMsg (dirErrMsg ("/home/u") ("boom")))])) := by
  refine ⟨?_, ?_, ?_, ?_, ?_⟩
  · exact (entry_failure_aborts_run wMkdirFail envU).1 ("/home/u") ("boom")
      (by decide) (by decide)
  · exact (entry_failure_aborts_run wRmFail envU).2.1 ("/t") ("/l") ("busy")
      (by decide) (by decide)
  · exact (entry_failure_aborts_run wLinkFail envU).2.2.1 ("/t") ("/l")
      ("eperm") (by decide) (by decide)
  · exact (entry_failure_aborts_run wMkdirFail envU).2.2.2.1 1
      ("$HOME/a $HOME/b") [("$HOME/c $HOME/d")]
      (dirErrMsg ("/home/u") ("boom")) (by decide)
  · exact (entry_failure_aborts_run wMkdirFail envU).2.2.2.2 ("/bin") ("/cfg")
      [("$HOME/a $HOME/b"), ("$HOME/c $HOME/d")]
      (dirErrMsg ("/home/u") ("boom")) (by decide)

/-! ## Claim C8: a dry run over a readable config always completes and
exits 0 -/

/-- C8: in dry-run mode both per-entry steps always succeed (they only
print), so the only fatal conditions are executable-path resolution,
config-missing, config-open and scan errors; over an existing, openable
config with no scanner error the scan loop returns no error,
`setupSymlinks` processes the whole file and ends with the completion
line, and the process exits 0. -/
theorem dry_run_completes (w : World) (env : String → String) (cfg : String)
    (lines : List String) (h1 : w.stat cfg ≠ .notExist)
    (h2 : w.openResult cfg = none) (h3 : w.scanErr = none) :
    (processLines w env true lines 1).err = none ∧
    setupSymlinks w env cfg lines true =
      ⟨setupHeader true cfg ::
          (processLines w env true lines 1).events ++ [completeEvent true],
        none⟩ ∧
    (∀ d, (mainRun w env (.ok d) lines true (some cfg)).1 = 0) := by
  have hb := processLines_dry w env lines 1
  cases hp : processLines w env true lines 1 with
  | mk evs err =>
    replace hb : mutations evs = [] ∧ err = none := by rw [hp] at hb; exact hb
    obtain ⟨hm, he⟩ := hb
    subst he
    have hset : setupSymlinks w env cfg lines true =
        ⟨setupHeader true cfg :: evs ++ [completeEvent true], none⟩ := by
      unfold setupSymlinks
      rw [if_neg h1, h2, hp, h3]
    refine ⟨rfl, by rw [hset], ?_⟩
    intro d
    have hres : resolveConfig d (some cfg) = cfg := rfl
    simp only [mainRun]
    rw [hres, hset]

/-- A world where only the config file exists. -/
def wCfg : World :=
  { wOK with
      stat := fun p => if p = "/etc/symlinker.conf" then .ok else .notExist }

/-- Witness for C8 over a two-line config (a comment and an entry). -/
theorem dry_run_completes_witness :
    (processLines wCfg envU true
        [("# ZSH config"), ("$HOME/.zshrc $TOOLS_DIR/.zshrc")] 1).err =
      none ∧
    (mainRun wCfg envU (.ok ("/bin"))
        [("# ZSH config"), ("$HOME/.zshrc $TOOLS_DIR/.zshrc")] true
        (some ("/etc/symlinker.conf"))).1 = 0 :=
  ⟨(dry_run_completes wCfg envU ("/etc/symlinker.conf")
      [("# ZSH config"), ("$HOME/.zshrc $TOOLS_DIR/.zshrc")]
      (by decide) (by decide) (by decide)).1,
   (dry_run_completes wCfg envU ("/etc/symlinker.conf")
      [("# ZSH config"), ("$HOME/.zshrc $TOOLS_DIR/.zshrc")]
      (by decide) (by decide) (by decide)).2.2 ("/bin")⟩

/-! ## Claim C3: missing config file — exit code and output order -/

/-- C3 counterexample: a dry-run invocation with a missing config file
exits 1 and does print the config-file-not-found message, but that
message is not the program's first output — the dry-run environment
banner precedes it — refuting the claim that in either run mode it
appears before any other output. -/
theorem config_missing_not_first_output :
    (mainRun wOK envU (.ok ("/bin")) [] true (some ("/missing.conf"))).1 =
      1 ∧
    Event.print (fatalMsg (notFoundMsg ("/missing.conf"))) ∈
      (mainRun wOK envU (.ok ("/bin")) [] true (some ("/missing.conf"))).2 ∧
    (mainRun wOK envU (.ok ("/bin")) [] true
        (some ("/missing.conf"))).2.head? ≠
      some (Event.print (fatalMsg (notFoundMsg ("/missing.conf")))) := by
  decide

/-- C3 (amended): for every invocation whose resolved config path does
not exist, the process exits 1 and its output ends with the
config-file-not-found message; in apply mode that message is the only
(hence first) output, while in dry-run mode it is preceded exactly by
the environment-info banner. -/
theorem config_missing_exits_nonzero (w : World) (env : String → String)
    (d : String) (lines : List String) (dryRun : Bool) (pos : Option String)
    (h : w.stat (resolveConfig d pos) = .notExist) :
    (mainRun w env (.ok d) lines dryRun pos).1 = 1 ∧
    (mainRun w env (.ok d) lines dryRun pos).2 =
      printEnvironmentInfo env dryRun ++
        [.print (fatalMsg (notFoundMsg (resolveConfig d pos)))] ∧
    (dryRun = false →
      (mainRun w env (.ok d) lines dryRun pos).2 =
        [.print (fatalMsg (notFoundMsg (resolveConfig d pos)))]) := by
  have hset : setupSymlinks w env (resolveConfig d pos) lines dryRun =
      ⟨[], some (notFoundMsg (resolveConfig d pos))⟩ := by
    unfold setupSymlinks
    rw [if_pos h]
  have hmain : mainRun w env (.ok d) lines dryRun pos =
      (1, printEnvironmentInfo env dryRun ++
        [.print (fatalMsg (notFoundMsg (resolveConfig d pos)))]) := by
    simp only [mainRun]
    rw [hset]
    simp
  refine ⟨by rw [hmain], by rw [hmain], ?_⟩
  intro hd
  subst hd
  rw [hmain]
  rfl

/-- Witness for the amended C3 in apply mode: the not-found message is
the entire output and the exit code is 1. -/
theorem config_missing_exits_nonzero_witness :
    (mainRun wOK envU (.ok ("/bin")) [] false (some ("/nope.conf"))).1 = 1 ∧
    (mainRun wOK envU (.ok ("/bin")) [] false (some ("/nope.conf"))).2 =
      [.print (fatalMsg (notFoundMsg ("/nope.conf")))] :=
  ⟨(config_missing_exits_nonzero wOK envU ("/bin") [] false
      (some ("/nope.conf")) (by decide)).1,
   (config_missing_exits_nonzero wOK envU ("/bin") [] false
      (some ("/nope.conf")) (by decide)).2.2 rfl⟩
